import Mathlib

/-!
Shallow embedding of the HRMS access-control engine
(backend/app/apis/access_control and backend/app/core), covering:

* the data model: `Permission`, `UserPermission` (override rows),
  `RolePermission`, `ExistingUser` (models.py of the respective modules);
* `UserPermissionRepository.check_user_has_permission`,
  `get_user_effective_permissions`, `grant_extra_permission`,
  `revoke_role_permission`, `remove_user_permission`
  (user_permissions/repositories.py);
* `PermissionChecker.check_permission`, `check_any_permission`,
  `verify_permission`, `verify_any_permission` (core/permission_checker.py);
* `PermissionSyncService.sync` (core/permission_sync.py);
* `RolePermissionService.bulk_assign_permissions` together with
  `RolePermissionRepository.assign_permission` / `bulk_assign_permissions`
  (role_permissions/services.py, repositories.py).

The database is modelled as lists of rows; SQLAlchemy `first()` queries become
`List.find?`, `all()` queries become `List.filter`, updates become `List.map`
on the matching rows, deletes become `List.filter`, inserts append.
-/

namespace HRMS

/-- Status enum of an override row, from `UserPermissionStatus` in
user_permissions/models.py: granted / revoked plus two legacy values. -/
inductive UserPermStatus
  | granted
  | revoked
  | active
  | inactive
deriving DecidableEq, Repr

/-- Row of the `permissions` table (permissions/models.py); `status` is a
string column holding "active" or "deleted". -/
structure Permission where
  permission_id : Nat
  permission_key : String
  description : String
  status : String
  updated_by : Nat
deriving DecidableEq, Repr

/-- Row of the `user_permissions` table (override rows),
user_permissions/models.py. -/
structure UserPermission where
  user_id : Nat
  permission_id : Nat
  status : UserPermStatus
  updated_by : Nat
deriving DecidableEq, Repr

/-- Row of the `role_permissions` table, role_permissions/models.py. -/
structure RolePermission where
  role_id : Nat
  permission_id : Nat
  updated_by : Nat
deriving DecidableEq, Repr

/-- Row of the `users` table (`ExistingUser`, auth/models.py): the fields the
access-control engine reads. `role_id` is a nullable foreign key. -/
structure ExistingUser where
  user_id : Nat
  role_id : Option Nat
  full_name : String
  email : String
deriving DecidableEq, Repr

/-- Row of the `roles` table; the engine only checks existence by id. -/
structure Role where
  role_id : Nat
deriving DecidableEq, Repr

/-- The database state the access-control engine reads and writes. -/
structure Store where
  permissions : List Permission
  user_permissions : List UserPermission
  role_permissions : List RolePermission
  users : List ExistingUser
  roles : List Role
deriving Repr

/-- Row filter of the override queries: `UserPermission.user_id == user_id,
UserPermission.permission_id == permission_id`. -/
def overrideMatches (uid pid : Nat) (up : UserPermission) : Bool :=
  up.user_id == uid && up.permission_id == pid

/-- Row filter of the role-permission queries: `RolePermission.role_id ==
role_id, RolePermission.permission_id == permission_id`. -/
def pairMatches (rid pid : Nat) (rp : RolePermission) : Bool :=
  rp.role_id == rid && rp.permission_id == pid

/-- Row filter `Permission.permission_key == key`. -/
def keyIs (k : String) (p : Permission) : Bool :=
  p.permission_key == k

/-- Query `Permission` by key with `status == 'active'`
(`check_user_has_permission`, first query). -/
def findActivePermission (s : Store) (key : String) : Option Permission :=
  s.permissions.find? (fun p => keyIs key p && p.status == "active")

/-- Query the override row for `(user_id, permission_id)`
(`get_by_user_and_permission` / the override query in
`check_user_has_permission`). -/
def findUserPermission (s : Store) (uid pid : Nat) : Option UserPermission :=
  s.user_permissions.find? (overrideMatches uid pid)

/-- The role-membership join in `check_user_has_permission`:
`ExistingUser` joined to `RolePermission` on `role_id`, filtered by
`user_id` and `permission_id`, tested for non-emptiness. -/
def userRoleHasPermission (s : Store) (uid pid : Nat) : Bool :=
  s.users.any (fun u =>
    u.user_id == uid &&
      (match u.role_id with
       | some rid =>
           s.role_permissions.any (fun rp =>
             rp.role_id == rid && rp.permission_id == pid)
       | none => false))

/-- `UserPermissionRepository.check_user_has_permission` (repositories.py
lines 186-228), the non-raising path: active permission lookup, then the
override short-circuit (`return user_perm.status == 'granted'`), then the
role join. -/
def check_user_has_permission (s : Store) (uid : Nat) (key : String) : Bool :=
  match findActivePermission s key with
  | none => false
  | some p =>
    match findUserPermission s uid p.permission_id with
    | some up => up.status == UserPermStatus.granted
    | none => userRoleHasPermission s uid p.permission_id

/-! ### Mutating override operations (user_permissions/repositories.py)

Each operation returns the call's result together with the post-call store.
On an error the repository code calls `self.db.rollback()` before re-raising,
so the post-call store is the pre-call store. -/

/-- Errors surfaced by repository operations. `repositories.py` imports only
`UserPermission` from `.models` (line 12), never `UserPermissionStatus`, so
every reference to that name raises a Python `NameError`; and
`roles/models.py` defines no `RolePermission`, so the deferred import at line
246 of `get_user_effective_permissions` raises `ImportError`. `connectivity`
stands for a store failure, `userNotFound` for the ValueError raised for a
missing user. -/
inductive DBError
  | nameError
  | importError
  | connectivity
  | userNotFound
deriving DecidableEq, Repr

/-- `UserPermissionRepository.grant_extra_permission` (lines 490-529). The
module never imports `UserPermissionStatus`, so the first reference to it —
`existing.status == UserPermissionStatus.REVOKED` at line 497 when an
override row exists, the `status=UserPermissionStatus.GRANTED` constructor
argument at line 512 when none does — raises `NameError` before any write.
The `except Exception` handler rolls back and re-raises, so every call fails
with the store unchanged; the flip, the AlreadyInState `ValueError` and the
insert are unreachable. -/
def grant_extra_permission (s : Store) (uid pid granted_by : Nat) :
    Except DBError Unit × Store :=
  (Except.error DBError.nameError, s)

/-- `UserPermissionRepository.revoke_role_permission` (lines 531-570):
identical shape to `grant_extra_permission`, with the undefined
`UserPermissionStatus` first referenced at line 538 (row exists) or line 553
(row absent); every call raises `NameError`, rolls back and re-raises with
the store unchanged. -/
def revoke_role_permission (s : Store) (uid pid revoked_by : Nat) :
    Except DBError Unit × Store :=
  (Except.error DBError.nameError, s)

/-- `UserPermissionRepository.remove_user_permission` (lines 572-588):
hard-delete of the override row; returns whether a row existed. -/
def remove_user_permission (s : Store) (uid pid : Nat) : Bool × Store :=
  match findUserPermission s uid pid with
  | none => (false, s)
  | some _ =>
    (true,
     { s with
       user_permissions := s.user_permissions.filter (fun up =>
         !(overrideMatches uid pid up)) })

/-! ### Fallible session (error-handling behaviour of the check path)

`check_user_has_permission` runs its queries inside `try`, and its
`except Exception` clause returns `False`. To state what happens when a query
raises, the session is modelled as a store plus a connectivity flag: when the
flag is set every query raises. -/

/-- A DB session: the store plus whether queries fail (connectivity loss). -/
structure Session where
  store : Store
  failing : Bool
deriving Repr

/-- Run one query against the session: raises `connectivity` when failing. -/
def runQuery (sess : Session) (f : Store → α) : Except DBError α :=
  if sess.failing then Except.error DBError.connectivity else Except.ok (f sess.store)

/-- The `try` body of `check_user_has_permission`: the three queries in
sequence, each able to raise. -/
def checkUserHasPermissionTry (sess : Session) (uid : Nat) (key : String) :
    Except DBError Bool := do
  let permOpt ← runQuery sess (fun s => findActivePermission s key)
  match permOpt with
  | none => return false
  | some p =>
    let upOpt ← runQuery sess (fun s => findUserPermission s uid p.permission_id)
    match upOpt with
    | some up => return (up.status == UserPermStatus.granted)
    | none => runQuery sess (fun s => userRoleHasPermission s uid p.permission_id)

/-- `check_user_has_permission` as actually written (lines 186-228): the
`except Exception` clause at lines 226-228 converts any raised error into the
boolean `False`. -/
def check_user_has_permission_db (sess : Session) (uid : Nat) (key : String) : Bool :=
  match checkUserHasPermissionTry sess uid key with
  | Except.ok b => b
  | Except.error _ => false

/-- `PermissionChecker.check_permission` (core/permission_checker.py lines
18-33): delegates to the repository; its own `except Exception` also returns
`False`, but the repository call already never raises. -/
def PermissionChecker.check_permission (sess : Session) (uid : Nat)
    (key : String) : Bool :=
  check_user_has_permission_db sess uid key

/-- `PermissionChecker.check_any_permission` (lines 36-41): loop with early
`return True` on the first key that checks out, else `False`. -/
def PermissionChecker.check_any_permission (sess : Session) (uid : Nat)
    (keys : List String) : Bool :=
  keys.any (fun k => PermissionChecker.check_permission sess uid k)

/-- The 403 error raised by the verification helpers. -/
inductive HTTPError
  | forbidden (detail : String)
deriving DecidableEq, Repr

/-- `PermissionChecker.verify_permission` (lines 44-53): raise 403 unless the
check passes. -/
def PermissionChecker.verify_permission (sess : Session) (uid : Nat)
    (key : String) : Except HTTPError Unit :=
  if PermissionChecker.check_permission sess uid key then Except.ok ()
  else Except.error (HTTPError.forbidden ("Permission required: " ++ key))

/-- `PermissionChecker.verify_any_permission` (lines 55-66): raise 403 unless
some key checks out. -/
def PermissionChecker.verify_any_permission (sess : Session) (uid : Nat)
    (keys : List String) : Except HTTPError Unit :=
  if PermissionChecker.check_any_permission sess uid keys then Except.ok ()
  else
    Except.error (HTTPError.forbidden
      ("Requires any of: " ++ String.intercalate ", " keys))

/-! ### Effective permissions (`get_user_effective_permissions`, lines 230-292) -/

/-- The dict `get_user_effective_permissions` is written to return. No call
ever produces it (see below); the type records the intended shape. -/
structure EffectivePermissionsResult where
  user_id : Nat
  full_name : String
  email : String
  role_id : Option Nat
  role_permissions : List String
  granted_permissions : List String
  revoked_permissions : List String
  effective_permissions : List String
  total_effective : Nat
deriving DecidableEq, Repr

/-- `UserPermissionRepository.get_granted_permissions` (lines 464-475): the
filter references `UserPermissionStatus.GRANTED` at line 471, a name the
module never imports, so every call raises `NameError` (logged, re-raised). -/
def get_granted_permissions (s : Store) (uid : Nat) :
    Except DBError (List UserPermission) :=
  Except.error DBError.nameError

/-- `UserPermissionRepository.get_revoked_permissions` (lines 477-488): same
`NameError` at line 484 on every call. -/
def get_revoked_permissions (s : Store) (uid : Nat) :
    Except DBError (List UserPermission) :=
  Except.error DBError.nameError

/-- `UserPermissionRepository.get_user_effective_permissions` (lines
230-292). The user query runs first: a missing user raises
`ValueError` (line 240). For an existing user with a role, the deferred
`from app.apis.access_control.roles.models import RolePermission` at line 246
raises `ImportError` — `roles/models.py` defines only `Role`; the
`RolePermission` model lives in `role_permissions/models.py`. For an existing
user without a role the import is skipped and step 2 calls
`get_granted_permissions`, which raises `NameError`. So the function never
returns a breakdown. -/
def get_user_effective_permissions (s : Store) (uid : Nat) :
    Except DBError EffectivePermissionsResult :=
  match s.users.find? (fun u => u.user_id == uid) with
  | none => Except.error DBError.userNotFound
  | some u =>
    match u.role_id with
    | some _ => Except.error DBError.importError
    | none => Except.error DBError.nameError

/-! ### Catalog synchronisation (`PermissionSyncService.sync`,
core/permission_sync.py lines 22-85)

`sync` works on the `permissions` table alone: it snapshots
`SELECT permission_key, status` into a dict (later rows win), walks the code
catalog in sorted order, and finally soft-deletes active rows absent from the
code. -/

/-- The magic system actor used for synchroniser-driven writes. -/
def SYSTEM_USER_ID : Nat := 2

/-- The dict `db_perms = {row[0]: row[1] for row in result}`: for each key the
status of the LAST row bearing it (dict comprehension, later rows win). -/
def dbPermsLookup (perms : List Permission) (k : String) : Option String :=
  (perms.reverse.find? (keyIs k)).map (fun p => p.status)

/-- Python `str.title()`: uppercase a letter that follows a non-letter,
lowercase the others. -/
def pyTitle (s : String) : String :=
  let rec go : List Char → Bool → List Char
    | [], _ => []
    | c :: rest, prevAlpha =>
      (if prevAlpha then c.toLower else c.toUpper) :: go rest c.isAlpha
  ⟨go s.data false⟩

/-- Description derived for an inserted key:
`f"{module.replace('_', ' ').title()} permission"` with
`module = perm_key.split('.')[0]`. -/
def descriptionFor (perm_key : String) : String :=
  let parts := perm_key.splitOn "."
  let module := parts.headD "system"
  pyTitle (module.replace "_" " ") ++ " permission"

/-- Auto-increment primary key for an inserted permissions row. -/
def nextPermissionId (perms : List Permission) : Nat :=
  (perms.map (fun p => p.permission_id)).foldr max 0 + 1

/-- The actions dict built by `sync`. -/
structure SyncActions where
  inserted : List String
  reactivated : List String
  soft_deleted : List String
  unchanged : List String
deriving DecidableEq, Repr

/-- One iteration of the `for perm_key in sorted(code_perms)` loop: insert an
absent key as active, reactivate a deleted key, or record it unchanged.
Branching reads the `db_perms` snapshot; mutations hit the live table. -/
def syncCodeStep (snapshot : String → Option String)
    (acc : List Permission × SyncActions) (k : String) :
    List Permission × SyncActions :=
  let (t, a) := acc
  match snapshot k with
  | none =>
      (t ++ [⟨nextPermissionId t, k, descriptionFor k, "active", SYSTEM_USER_ID⟩],
       { a with inserted := a.inserted ++ [k] })
  | some st =>
      if st == "deleted" then
        (t.map (fun p =>
           if keyIs k p then
             { p with status := "active", updated_by := SYSTEM_USER_ID }
           else p),
         { a with reactivated := a.reactivated ++ [k] })
      else
        (t, { a with unchanged := a.unchanged ++ [k] })

/-- One iteration of the `for perm_key, status in db_perms.items()` loop:
soft-delete an active row whose key left the code catalog. -/
def syncDeleteStep (codeSet : List String) (snapshot : String → Option String)
    (acc : List Permission × SyncActions) (k : String) :
    List Permission × SyncActions :=
  let (t, a) := acc
  if !(codeSet.contains k) && snapshot k == some "active" then
    (t.map (fun p =>
       if keyIs k p then
         { p with status := "deleted", updated_by := SYSTEM_USER_ID }
       else p),
     { a with soft_deleted := a.soft_deleted ++ [k] })
  else (t, a)

/-- `PermissionSyncService.sync` (lines 22-85): the whole reconciliation pass
over the permissions table for a given code catalog `codePerms`
(`PermissionKey.values()`). Returns the actions dict and the new table. -/
def sync (table : List Permission) (codePerms : List String) :
    SyncActions × List Permission :=
  let codeSet := codePerms.dedup
  let snapshot := fun k => dbPermsLookup table k
  let sortedCode := codeSet.insertionSort (· ≤ ·)
  let step1 := sortedCode.foldl (syncCodeStep snapshot) (table, ⟨[], [], [], []⟩)
  let dbKeys := (table.map (fun p => p.permission_key)).dedup
  let step2 := dbKeys.foldl (syncDeleteStep codeSet snapshot) step1
  (step2.2, step2.1)

/-- The status a code-catalog key's row carries after one pass of the code
loop of `sync`: inserted or reactivated keys become `active`; any other
status is left alone. -/
def postCodeStatus : Option String → Option String
  | none => some "active"
  | some st => if st == "deleted" then some "active" else some st

/-! ### Bulk role-permission assignment
(role_permissions/services.py lines 245-301, repositories.py lines 77-107 and
176-194) -/

/-- The 400 error of the upfront validation. -/
inductive BadRequest
  | rolesMissing
  | permissionsMissing
deriving DecidableEq, Repr

/-- The dict returned by `RolePermissionService.bulk_assign_permissions`. -/
structure BulkAssignReport where
  total_attempted : Nat
  successfully_assigned : Nat
  duplicates_skipped : Nat
deriving DecidableEq, Repr

/-- `RolePermissionRepository.assign_permission` (lines 77-107): an existing
`(role, permission)` pair only has its audit field refreshed and is RETURNED;
a new pair inserts a row. Either way a row object comes back. -/
def assign_permission (s : Store) (rid pid actor : Nat) : Store × RolePermission :=
  match s.role_permissions.find? (pairMatches rid pid) with
  | some existing =>
      ({ s with
         role_permissions := s.role_permissions.map (fun rp =>
           if pairMatches rid pid rp then
             { rp with updated_by := actor }
           else rp) },
       { existing with updated_by := actor })
  | none =>
      ({ s with role_permissions := s.role_permissions ++ [⟨rid, pid, actor⟩] },
       ⟨rid, pid, actor⟩)

/-- One iteration of the inner `for permission_id in permission_ids` loop of
`RolePermissionRepository.bulk_assign_permissions`: call `assign_permission`
and append the returned row to `assigned`. -/
def assignStep (rid actor : Nat) (acc : Store × List RolePermission)
    (pid : Nat) : Store × List RolePermission :=
  let r := assign_permission acc.1 rid pid actor
  (r.1, acc.2 ++ [r.2])

/-- `RolePermissionRepository.bulk_assign_permissions` (lines 176-194): the
cartesian-product loop, appending each returned row to `assigned`; the inner
`except` skips only raised errors, which `assign_permission` never produces
here. -/
def bulk_assign_repo (s : Store) (role_ids permission_ids : List Nat)
    (actor : Nat) : Store × List RolePermission :=
  role_ids.foldl (fun acc rid =>
    permission_ids.foldl (assignStep rid actor) acc) (s, [])

/-- Whether a `(role, permission)` pair is present in `role_permissions`. -/
def pairAssigned (s : Store) (rid pid : Nat) : Bool :=
  (s.role_permissions.find? (pairMatches rid pid)).isSome

/-- `RolePermissionService.bulk_assign_permissions` (services.py lines
245-301): count-based upfront validation of all roles and all active
permissions (400 on failure, store untouched), then the cartesian assignment,
then the report with `duplicates_skipped = attempted - len(assigned)`. -/
def bulk_assign_permissions (s : Store) (role_ids permission_ids : List Nat)
    (actor : Nat) : Except BadRequest BulkAssignReport × Store :=
  let roles_count :=
    (s.roles.filter (fun r => role_ids.contains r.role_id)).length
  if roles_count ≠ role_ids.length then
    (Except.error BadRequest.rolesMissing, s)
  else
    let perms_count :=
      (s.permissions.filter (fun p =>
        permission_ids.contains p.permission_id && p.status == "active")).length
    if perms_count ≠ permission_ids.length then
      (Except.error BadRequest.permissionsMissing, s)
    else
      let r := bulk_assign_repo s role_ids permission_ids actor
      (Except.ok
        { total_attempted := role_ids.length * permission_ids.length
          successfully_assigned := r.2.length
          duplicates_skipped :=
            role_ids.length * permission_ids.length - r.2.length }, r.1)

/-! ## Concrete states used as witnesses and counterexamples -/

/-- An active permission row. -/
def P_leave : Permission := ⟨1, "leave.view", "Leave permission", "active", 2⟩

/-- A user on role 1. -/
def U_alice : ExistingUser := ⟨1, some 1, "Alice", "alice"⟩

/-- Role 1 holds permission 1. -/
def RP_leave : RolePermission := ⟨1, 1, 2⟩

/-- User 1 gets `leave.view` purely through role 1; no override rows. -/
def exStoreRole : Store := ⟨[P_leave], [], [RP_leave], [U_alice], [⟨1⟩]⟩

/-- Same, plus an override row in the legacy `active` status. -/
def exStoreLegacy : Store :=
  ⟨[P_leave], [⟨1, 1, UserPermStatus.active, 2⟩], [RP_leave], [U_alice], [⟨1⟩]⟩

/-- Same, plus a Granted override row. -/
def exStoreGranted : Store :=
  ⟨[P_leave], [⟨1, 1, UserPermStatus.granted, 2⟩], [RP_leave], [U_alice], [⟨1⟩]⟩

/-- Same, plus a Revoked override row. -/
def exStoreRevoked : Store :=
  ⟨[P_leave], [⟨1, 1, UserPermStatus.revoked, 2⟩], [RP_leave], [U_alice], [⟨1⟩]⟩

/-- A Granted override row pointing at a soft-deleted permission. -/
def exStoreDeleted : Store :=
  ⟨[⟨1, "gone.key", "d", "deleted", 2⟩], [⟨1, 1, UserPermStatus.granted, 2⟩],
   [], [⟨1, none, "Alice", "alice"⟩], []⟩

/-- Two roles and two active permissions, no assignments yet. -/
def exStoreBulk : Store :=
  ⟨[⟨1, "a.x", "d", "active", 2⟩, ⟨2, "a.y", "d", "active", 2⟩],
   [], [], [], [⟨1⟩, ⟨2⟩]⟩

/-- A session over `exStoreRole` whose queries raise. -/
def exSessFail : Session := ⟨exStoreRole, true⟩

/-- A healthy session over `exStoreRole`. -/
def exSessOk : Session := ⟨exStoreRole, false⟩

/-! ## General list lemmas -/

/-- Mapping `h` over a list leaves `find? p` unchanged when `h` preserves the
predicate and fixes the matched rows. -/
theorem find?_map_fix {α : Type} (p : α → Bool) (h : α → α) (l : List α)
    (hpres : ∀ a, p (h a) = p a) (hfix : ∀ a, p a = true → h a = a) :
    (l.map h).find? p = l.find? p := by
  induction l with
  | nil => rfl
  | cons x xs ih =>
    cases hx : p x with
    | true => simp [hpres x, hx, hfix x hx]
    | false => simp [hpres x, hx, ih]

/-- When nothing in `l₁` matches, `find?` over `l₁ ++ l₂` falls through. -/
theorem find?_append_of_none {α : Type} (p : α → Bool) (l₁ l₂ : List α)
    (h : l₁.find? p = none) : (l₁ ++ l₂).find? p = l₂.find? p := by
  rw [List.find?_append, h, Option.none_or]

/-- A map that preserves the predicate preserves whether `find?` succeeds. -/
theorem find?_isSome_map {α : Type} (p : α → Bool) (h : α → α) (l : List α)
    (hpres : ∀ a, p (h a) = p a) :
    ((l.map h).find? p).isSome = (l.find? p).isSome := by
  rw [List.find?_map, show p ∘ h = p from funext hpres]
  cases l.find? p <;> rfl

/-! ## Unfolding lemmas for the permission check -/

/-- Deny when no active permission row carries the key. -/
theorem check_eq_false_of_no_active (s : Store) (uid : Nat) (key : String)
    (h : findActivePermission s key = none) :
    check_user_has_permission s uid key = false := by
  unfold check_user_has_permission
  rw [h]

/-- With an override row present the check is exactly `status == granted`. -/
theorem check_of_override (s : Store) (uid : Nat) (key : String)
    (p : Permission) (up : UserPermission)
    (hp : findActivePermission s key = some p)
    (hup : findUserPermission s uid p.permission_id = some up) :
    check_user_has_permission s uid key = (up.status == UserPermStatus.granted) := by
  simp only [check_user_has_permission, hp, hup]

/-! ## Bulk-assignment lemmas -/

/-- The audit-only update of `assign_permission` does not change which rows a
pair predicate matches. -/
theorem pairMatches_update (rid pid actor r' p' : Nat) (a : RolePermission) :
    pairMatches r' p'
      (if pairMatches rid pid a then { a with updated_by := actor } else a) =
      pairMatches r' p' a := by
  cases hc : pairMatches rid pid a <;> simp [pairMatches]

/-- `assign_permission` never touches the other tables. -/
theorem assign_permission_fields (s : Store) (rid pid actor : Nat) :
    ((assign_permission s rid pid actor).1).permissions = s.permissions ∧
    ((assign_permission s rid pid actor).1).roles = s.roles := by
  unfold assign_permission
  cases h : s.role_permissions.find? (pairMatches rid pid) <;> simp

/-- `assign_permission` adds at most one row. -/
theorem assign_permission_length (s : Store) (rid pid actor : Nat) :
    ((assign_permission s rid pid actor).1).role_permissions.length ≤
      s.role_permissions.length + 1 := by
  unfold assign_permission
  cases h : s.role_permissions.find? (pairMatches rid pid) with
  | none => simp
  | some rp => simp

/-- `assign_permission` on an existing pair only remaps rows: no new row. -/
theorem assign_permission_length_of_assigned (s : Store) (rid pid actor : Nat)
    (h : pairAssigned s rid pid = true) :
    ((assign_permission s rid pid actor).1).role_permissions.length =
      s.role_permissions.length := by
  unfold pairAssigned at h
  unfold assign_permission
  cases hf : s.role_permissions.find? (pairMatches rid pid) with
  | none => rw [hf] at h; simp at h
  | some rp => simp

/-- After `assign_permission` the pair is present. -/
theorem assign_permission_assigns (s : Store) (rid pid actor : Nat) :
    pairAssigned ((assign_permission s rid pid actor).1) rid pid = true := by
  unfold pairAssigned assign_permission
  cases hf : s.role_permissions.find? (pairMatches rid pid) with
  | none =>
      show ((s.role_permissions ++
        [(⟨rid, pid, actor⟩ : RolePermission)]).find? (pairMatches rid pid)).isSome = true
      rw [find?_append_of_none _ _ _ hf]
      simp [pairMatches]
  | some rp =>
      show ((s.role_permissions.map fun rp =>
        if pairMatches rid pid rp then { rp with updated_by := actor } else rp).find?
          (pairMatches rid pid)).isSome = true
      rw [find?_isSome_map _ _ _ (pairMatches_update rid pid actor rid pid)]
      rw [hf]
      rfl

/-- `assign_permission` keeps every pair that was already present. -/
theorem assign_permission_preserves (s : Store) (rid pid actor r' p' : Nat)
    (h : pairAssigned s r' p' = true) :
    pairAssigned ((assign_permission s rid pid actor).1) r' p' = true := by
  unfold pairAssigned at h
  unfold pairAssigned assign_permission
  cases hf : s.role_permissions.find? (pairMatches rid pid) with
  | none =>
      obtain ⟨rp', hrp'⟩ := Option.isSome_iff_exists.mp h
      show ((s.role_permissions ++
        [(⟨rid, pid, actor⟩ : RolePermission)]).find? (pairMatches r' p')).isSome = true
      simp [List.find?_append, hrp']
  | some rp =>
      show ((s.role_permissions.map fun rp =>
        if pairMatches rid pid rp then { rp with updated_by := actor } else rp).find?
          (pairMatches r' p')).isSome = true
      rw [find?_isSome_map _ _ _ (pairMatches_update rid pid actor r' p')]
      exact h

/-- Behaviour of the inner `for permission_id in permission_ids` loop. -/
theorem assign_inner_fold (rid actor : Nat) (pids : List Nat) :
    ∀ acc : Store × List RolePermission,
      (pids.foldl (assignStep rid actor) acc).2.length =
        acc.2.length + pids.length ∧
      ((pids.foldl (assignStep rid actor) acc).1).permissions = acc.1.permissions ∧
      ((pids.foldl (assignStep rid actor) acc).1).roles = acc.1.roles ∧
      ((pids.foldl (assignStep rid actor) acc).1).role_permissions.length ≤
        acc.1.role_permissions.length + pids.length ∧
      (∀ r' p', pairAssigned acc.1 r' p' = true →
        pairAssigned ((pids.foldl (assignStep rid actor) acc).1) r' p' = true) ∧
      (∀ pid ∈ pids,
        pairAssigned ((pids.foldl (assignStep rid actor) acc).1) rid pid = true) ∧
      ((∀ pid ∈ pids, pairAssigned acc.1 rid pid = true) →
        ((pids.foldl (assignStep rid actor) acc).1).role_permissions.length =
          acc.1.role_permissions.length) := by
  induction pids with
  | nil =>
      intro acc
      exact ⟨rfl, rfl, rfl, Nat.le_add_right _ _, fun r' p' h => h,
        fun pid hpid => absurd hpid (by simp), fun _ => rfl⟩
  | cons pid pids ih =>
      intro acc
      rw [List.foldl_cons]
      obtain ⟨ihlen, ihperm, ihroles, ihbound, ihpres, ihall, iheq⟩ :=
        ih (assignStep rid actor acc pid)
      have hstep1 : (assignStep rid actor acc pid).1 =
          (assign_permission acc.1 rid pid actor).1 := rfl
      have hstep2 : (assignStep rid actor acc pid).2 =
          acc.2 ++ [(assign_permission acc.1 rid pid actor).2] := rfl
      refine ⟨?_, ?_, ?_, ?_, ?_, ?_, ?_⟩
      · rw [ihlen]
        simp only [assignStep, List.length_append, List.length_cons, List.length_nil]
        omega
      · rw [ihperm, hstep1, (assign_permission_fields acc.1 rid pid actor).1]
      · rw [ihroles, hstep1, (assign_permission_fields acc.1 rid pid actor).2]
      · have h1 := assign_permission_length acc.1 rid pid actor
        rw [← hstep1] at h1
        simp only [List.length_cons]
        omega
      · intro r' p' h
        exact ihpres r' p'
          (by rw [hstep1]; exact assign_permission_preserves acc.1 rid pid actor r' p' h)
      · intro q hq
        rcases List.mem_cons.mp hq with hq | hq
        · subst hq
          exact ihpres rid q
            (by rw [hstep1]; exact assign_permission_assigns acc.1 rid q actor)
        · exact ihall q hq
      · intro hall
        have hhead := hall pid (by simp)
        have heq1 : ((assignStep rid actor acc pid).1).role_permissions.length =
            acc.1.role_permissions.length := by
          rw [hstep1]
          exact assign_permission_length_of_assigned acc.1 rid pid actor hhead
        have htail : ∀ q ∈ pids, pairAssigned (assignStep rid actor acc pid).1 rid q = true := by
          intro q hq
          rw [hstep1]
          exact assign_permission_preserves acc.1 rid pid actor rid q (hall q (by simp [hq]))
        rw [iheq htail, heq1]

/-- Behaviour of the whole cartesian loop of `bulk_assign_repo`. -/
theorem assign_outer_fold (actor : Nat) (pids : List Nat) (rids : List Nat) :
    ∀ acc : Store × List RolePermission,
      (rids.foldl (fun a rid => pids.foldl (assignStep rid actor) a) acc).2.length =
        acc.2.length + rids.length * pids.length ∧
      ((rids.foldl (fun a rid => pids.foldl (assignStep rid actor) a) acc).1).permissions =
        acc.1.permissions ∧
      ((rids.foldl (fun a rid => pids.foldl (assignStep rid actor) a) acc).1).roles =
        acc.1.roles ∧
      ((rids.foldl (fun a rid => pids.foldl (assignStep rid actor) a) acc).1).role_permissions.length ≤
        acc.1.role_permissions.length + rids.length * pids.length ∧
      (∀ r' p', pairAssigned acc.1 r' p' = true →
        pairAssigned
          ((rids.foldl (fun a rid => pids.foldl (assignStep rid actor) a) acc).1)
          r' p' = true) ∧
      (∀ rid ∈ rids, ∀ pid ∈ pids,
        pairAssigned
          ((rids.foldl (fun a rid => pids.foldl (assignStep rid actor) a) acc).1)
          rid pid = true) ∧
      ((∀ rid ∈ rids, ∀ pid ∈ pids, pairAssigned acc.1 rid pid = true) →
        ((rids.foldl (fun a rid => pids.foldl (assignStep rid actor) a) acc).1).role_permissions.length =
          acc.1.role_permissions.length) := by
  induction rids with
  | nil =>
      intro acc
      exact ⟨by simp, rfl, rfl, by simp, fun r' p' h => h,
        fun rid h => absurd h (by simp), fun _ => rfl⟩
  | cons rid rids ih =>
      intro acc
      rw [List.foldl_cons]
      obtain ⟨ihlen, ihperm, ihroles, ihbound, ihpres, ihall, iheq⟩ :=
        ih (pids.foldl (assignStep rid actor) acc)
      obtain ⟨inlen, inperm, inroles, inbound, inpres, inall, ineq⟩ :=
        assign_inner_fold rid actor pids acc
      refine ⟨?_, ?_, ?_, ?_, ?_, ?_, ?_⟩
      · rw [ihlen, inlen, List.length_cons, Nat.succ_mul]
        omega
      · rw [ihperm, inperm]
      · rw [ihroles, inroles]
      · rw [List.length_cons, Nat.succ_mul]
        omega
      · intro r' p' h
        exact ihpres r' p' (inpres r' p' h)
      · intro q hq pid hpid
        rcases List.mem_cons.mp hq with hq | hq
        · subst hq
          exact ihpres q pid (inall pid hpid)
        · exact ihall q hq pid hpid
      · intro hall
        have hinner : ((pids.foldl (assignStep rid actor) acc).1).role_permissions.length =
            acc.1.role_permissions.length :=
          ineq (hall rid (by simp))
        have houter : ∀ q ∈ rids, ∀ pid ∈ pids,
            pairAssigned (pids.foldl (assignStep rid actor) acc).1 q pid = true :=
          fun q hq pid hpid => inpres q pid (hall q (by simp [hq]) pid hpid)
        rw [iheq houter, hinner]

/-! ## Synchronisation lemmas -/

/-- A status update at key `k` does not change which key a row carries. -/
theorem keyIs_set_status (k st : String) (q : String) (a : Permission) :
    keyIs q (if keyIs k a then
      { a with status := st, updated_by := SYSTEM_USER_ID } else a) =
      keyIs q a := by
  cases hc : keyIs k a <;> simp [keyIs]

/-- Appending one row: the dict snapshot sees the new row first (later rows
win in the dict comprehension). -/
theorem dbPermsLookup_append (t : List Permission) (r : Permission) (q : String) :
    dbPermsLookup (t ++ [r]) q =
      if keyIs q r then some r.status else dbPermsLookup t q := by
  unfold dbPermsLookup
  rw [List.reverse_append]
  cases hr : keyIs q r with
  | true => simp [hr]
  | false => simp [hr]

/-- A status update at key `k` leaves lookups at other keys alone. -/
theorem dbPermsLookup_map_ne (t : List Permission) (k st : String) (q : String)
    (hne : q ≠ k) :
    dbPermsLookup (t.map (fun p => if keyIs k p then
      { p with status := st, updated_by := SYSTEM_USER_ID } else p)) q =
      dbPermsLookup t q := by
  unfold dbPermsLookup
  rw [← List.map_reverse]
  rw [find?_map_fix (keyIs q) _ _ (keyIs_set_status k st q) ?hfix]
  case hfix =>
    intro a ha
    simp only [keyIs, beq_iff_eq] at ha
    rw [if_neg (by simp only [keyIs, beq_iff_eq]; rw [ha]; exact hne)]

/-- A status update at key `k` turns every present status at `k` into `st`. -/
theorem dbPermsLookup_map_eq (t : List Permission) (k st : String) :
    dbPermsLookup (t.map (fun p => if keyIs k p then
      { p with status := st, updated_by := SYSTEM_USER_ID } else p)) k =
      (dbPermsLookup t k).map (fun _ => st) := by
  unfold dbPermsLookup
  rw [← List.map_reverse]
  rw [List.find?_map,
    show (keyIs k ∘ fun p => if keyIs k p then
        { p with status := st, updated_by := SYSTEM_USER_ID } else p) = keyIs k
      from funext (keyIs_set_status k st k)]
  cases hfind : t.reverse.find? (keyIs k) with
  | none => rfl
  | some p =>
      have hp := List.find?_some hfind
      simp [hp]

/-- The dict snapshot is defined exactly on the keys present in the table. -/
theorem dbPermsLookup_isSome_iff (t : List Permission) (q : String) :
    (dbPermsLookup t q).isSome = true ↔ ∃ p ∈ t, p.permission_key = q := by
  unfold dbPermsLookup
  simp [keyIs]

/-- What the code loop never leaves behind: a `deleted` status on a catalog
key. -/
theorem postCodeStatus_not_deleted (o : Option String) :
    ∃ st, postCodeStatus o = some st ∧ (st == "deleted") = false := by
  cases o with
  | none => exact ⟨"active", rfl, rfl⟩
  | some st =>
      cases h : (st == "deleted") with
      | true => exact ⟨"active", by simp [postCodeStatus, h], rfl⟩
      | false => exact ⟨st, by simp [postCodeStatus, h], h⟩

/-- Sorting preserves freedom from duplicates. -/
theorem nodup_insertionSort (l : List String) (h : l.Nodup) :
    (l.insertionSort (fun a b => a ≤ b)).Nodup :=
  ((List.perm_insertionSort _ _).nodup_iff).mpr h

/-- Sorting preserves membership. -/
theorem mem_insertionSort (k : String) (l : List String) :
    k ∈ l.insertionSort (fun a b => a ≤ b) ↔ k ∈ l :=
  (List.perm_insertionSort _ _).mem_iff

/-- When every catalog key already sits in the snapshot with a non-deleted
status, the code loop mutates nothing and only records keys as unchanged. -/
theorem syncCode_foldl_unchanged (snapshot : String → Option String) :
    ∀ (l : List String) (t : List Permission) (a : SyncActions),
      (∀ k ∈ l, ∃ st, snapshot k = some st ∧ (st == "deleted") = false) →
      l.foldl (syncCodeStep snapshot) (t, a) =
        (t, { a with unchanged := a.unchanged ++ l }) := by
  intro l
  induction l with
  | nil => intro t a _; simp
  | cons k l ih =>
      intro t a h
      obtain ⟨st, hst, hdel⟩ := h k (by simp)
      rw [List.foldl_cons]
      have hstep : syncCodeStep snapshot (t, a) k =
          (t, { a with unchanged := a.unchanged ++ [k] }) := by
        simp [syncCodeStep, hst, hdel]
      rw [hstep, ih t _ (fun q hq => h q (by simp [hq]))]
      simp

/-- When no snapshot key is both stale and active, the delete loop is the
identity. -/
theorem syncDelete_foldl_skip (codeSet : List String)
    (snapshot : String → Option String) :
    ∀ (l : List String) (t : List Permission) (a : SyncActions),
      (∀ k ∈ l,
        (!(codeSet.contains k) && (snapshot k == some "active")) = false) →
      l.foldl (syncDeleteStep codeSet snapshot) (t, a) = (t, a) := by
  intro l
  induction l with
  | nil => intro t a _; rfl
  | cons k l ih =>
      intro t a h
      rw [List.foldl_cons]
      have hstep : syncDeleteStep codeSet snapshot (t, a) k = (t, a) := by
        show (if (!(codeSet.contains k) && (snapshot k == some "active")) = true
          then (t.map (fun p => if keyIs k p then
              { p with status := "deleted", updated_by := SYSTEM_USER_ID } else p),
            { a with soft_deleted := a.soft_deleted ++ [k] })
          else (t, a)) = (t, a)
        rw [if_neg (by rw [h k (by simp)]; simp)]
      rw [hstep, ih t a (fun q hq => h q (by simp [hq]))]

/-- Pointwise effect of the code loop on the table: every processed key ends
at `postCodeStatus` of its snapshot value, other keys are untouched. -/
theorem syncCode_foldl_lookup (snapshot : String → Option String) :
    ∀ (l : List String) (t : List Permission) (a : SyncActions),
      l.Nodup →
      (∀ q ∈ l, dbPermsLookup t q = snapshot q) →
      ∀ q, dbPermsLookup ((l.foldl (syncCodeStep snapshot) (t, a)).1) q =
        if q ∈ l then postCodeStatus (snapshot q) else dbPermsLookup t q := by
  intro l
  induction l with
  | nil =>
      intro t a _ _ q
      simp
  | cons k l ih =>
      intro t a hnd hagree q
      have hknl : k ∉ l := (List.nodup_cons.mp hnd).1
      have hndl : l.Nodup := (List.nodup_cons.mp hnd).2
      have hk0 : dbPermsLookup t k = snapshot k := hagree k (by simp)
      rw [List.foldl_cons]
      cases hsk : snapshot k with
      | none =>
          have hstep : syncCodeStep snapshot (t, a) k =
              (t ++ [⟨nextPermissionId t, k, descriptionFor k, "active",
                SYSTEM_USER_ID⟩],
               { a with inserted := a.inserted ++ [k] }) := by
            simp [syncCodeStep, hsk]
          rw [hstep]
          have happ : ∀ q', q' ≠ k →
              dbPermsLookup (t ++ [⟨nextPermissionId t, k, descriptionFor k,
                "active", SYSTEM_USER_ID⟩]) q' = dbPermsLookup t q' := by
            intro q' hq'
            rw [dbPermsLookup_append,
              if_neg (by simp only [keyIs, beq_iff_eq]; exact fun h => hq' h.symm)]
          have hagree1 : ∀ q' ∈ l,
              dbPermsLookup (t ++ [⟨nextPermissionId t, k, descriptionFor k,
                "active", SYSTEM_USER_ID⟩]) q' = snapshot q' := by
            intro q' hq'
            rw [happ q' (fun he => hknl (by rw [← he]; exact hq'))]
            exact hagree q' (by simp [hq'])
          rw [ih _ _ hndl hagree1 q]
          by_cases hql : q ∈ l
          · simp [hql]
          · by_cases hqk : q = k
            · subst hqk
              rw [if_neg hql, if_pos (by simp), dbPermsLookup_append,
                if_pos (by simp [keyIs]), hsk]
              rfl
            · rw [if_neg hql, if_neg (by simp [hqk, hql]), happ q hqk]
      | some st =>
          cases hdel : st == "deleted" with
          | true =>
              have hstep : syncCodeStep snapshot (t, a) k =
                  (t.map (fun p => if keyIs k p then
                    { p with status := "active", updated_by := SYSTEM_USER_ID }
                   else p),
                   { a with reactivated := a.reactivated ++ [k] }) := by
                simp [syncCodeStep, hsk, hdel]
              rw [hstep]
              have hagree1 : ∀ q' ∈ l,
                  dbPermsLookup (t.map (fun p => if keyIs k p then
                    { p with status := "active", updated_by := SYSTEM_USER_ID }
                   else p)) q' = snapshot q' := by
                intro q' hq'
                rw [dbPermsLookup_map_ne _ _ _ _ (fun he => hknl (by rw [← he]; exact hq'))]
                exact hagree q' (by simp [hq'])
              rw [ih _ _ hndl hagree1 q]
              by_cases hql : q ∈ l
              · simp [hql]
              · by_cases hqk : q = k
                · subst hqk
                  rw [if_neg hql, if_pos (by simp), dbPermsLookup_map_eq, hk0, hsk]
                  simp [postCodeStatus, hdel]
                · rw [if_neg hql, if_neg (by simp [hqk, hql]),
                    dbPermsLookup_map_ne _ _ _ _ hqk]
          | false =>
              have hstep : syncCodeStep snapshot (t, a) k =
                  (t, { a with unchanged := a.unchanged ++ [k] }) := by
                simp [syncCodeStep, hsk, hdel]
              rw [hstep]
              rw [ih _ _ hndl (fun q' hq' => hagree q' (by simp [hq'])) q]
              by_cases hql : q ∈ l
              · simp [hql]
              · by_cases hqk : q = k
                · subst hqk
                  rw [if_neg hql, if_pos (by simp), hk0, hsk]
                  simp [postCodeStatus, hdel]
                · rw [if_neg hql, if_neg (by simp [hqk, hql])]

/-- Pointwise effect of the delete loop on the table: every processed key
that is stale and active gets status `deleted`, other keys are untouched. -/
theorem syncDelete_foldl_lookup (codeSet : List String)
    (snapshot : String → Option String) :
    ∀ (l : List String) (t : List Permission) (a : SyncActions),
      l.Nodup →
      (∀ q ∈ l, codeSet.contains q = false → dbPermsLookup t q = snapshot q) →
      ∀ q, dbPermsLookup ((l.foldl (syncDeleteStep codeSet snapshot) (t, a)).1) q =
        if q ∈ l ∧ codeSet.contains q = false ∧ snapshot q = some "active"
        then some "deleted" else dbPermsLookup t q := by
  intro l
  induction l with
  | nil =>
      intro t a _ _ q
      simp
  | cons k l ih =>
      intro t a hnd hagree q
      have hknl : k ∉ l := (List.nodup_cons.mp hnd).1
      have hndl : l.Nodup := (List.nodup_cons.mp hnd).2
      rw [List.foldl_cons]
      cases hcond : (!(codeSet.contains k) && (snapshot k == some "active")) with
      | true =>
          have hca : codeSet.contains k = false ∧ snapshot k = some "active" := by
            simpa using hcond
          have hstep : syncDeleteStep codeSet snapshot (t, a) k =
              (t.map (fun p => if keyIs k p then
                { p with status := "deleted", updated_by := SYSTEM_USER_ID }
               else p),
               { a with soft_deleted := a.soft_deleted ++ [k] }) := by
            show (if (!(codeSet.contains k) && (snapshot k == some "active")) = true
              then (t.map (fun p => if keyIs k p then
                  { p with status := "deleted", updated_by := SYSTEM_USER_ID }
                 else p),
                { a with soft_deleted := a.soft_deleted ++ [k] })
              else (t, a)) = _
            rw [if_pos hcond]
          rw [hstep]
          have hagree1 : ∀ q' ∈ l, codeSet.contains q' = false →
              dbPermsLookup (t.map (fun p => if keyIs k p then
                { p with status := "deleted", updated_by := SYSTEM_USER_ID }
               else p)) q' = snapshot q' := by
            intro q' hq' hc'
            rw [dbPermsLookup_map_ne _ _ _ _ (fun he => hknl (by rw [← he]; exact hq'))]
            exact hagree q' (by simp [hq']) hc'
          rw [ih _ _ hndl hagree1 q]
          by_cases hql : q ∈ l
          · have hqk : q ≠ k := fun he => hknl (by rw [← he]; exact hql)
            rw [dbPermsLookup_map_ne _ _ _ _ hqk]
            simp [hql]
          · by_cases hqk : q = k
            · subst hqk
              rw [if_neg (fun hc => hql hc.1), dbPermsLookup_map_eq,
                hagree q (by simp) hca.1, hca.2,
                if_pos ⟨by simp, hca.1, rfl⟩]
              rfl
            · rw [if_neg (fun hc => hql hc.1),
                dbPermsLookup_map_ne _ _ _ _ hqk,
                if_neg (fun hc =>
                  (List.mem_cons.mp hc.1).elim (fun h => hqk h) (fun h => hql h))]
      | false =>
          have hstep : syncDeleteStep codeSet snapshot (t, a) k = (t, a) := by
            show (if (!(codeSet.contains k) && (snapshot k == some "active")) = true
              then (t.map (fun p => if keyIs k p then
                  { p with status := "deleted", updated_by := SYSTEM_USER_ID }
                 else p),
                { a with soft_deleted := a.soft_deleted ++ [k] })
              else (t, a)) = (t, a)
            rw [if_neg (by rw [hcond]; simp)]
          rw [hstep]
          rw [ih _ _ hndl (fun q' hq' hc' => hagree q' (by simp [hq']) hc') q]
          by_cases hql : q ∈ l
          · simp [hql]
          · by_cases hqk : q = k
            · subst hqk
              rw [if_neg (fun hc => hql hc.1), if_neg ?hne]
              case hne =>
                intro hc
                obtain ⟨_, hc2, hc3⟩ := hc
                have : (!(codeSet.contains q) && (snapshot q == some "active")) = true := by
                  rw [hc2, hc3]
                  rfl
                rw [hcond] at this
                simp at this
            · rw [if_neg (fun hc => hql hc.1),
                if_neg (fun hc =>
                  (List.mem_cons.mp hc.1).elim (fun h => hqk h) (fun h => hql h))]

/-- Full pointwise characterisation of one `sync` pass: catalog keys end at
`postCodeStatus` of their old status; stale active keys become `deleted`;
everything else is untouched. -/
theorem sync_lookup (table : List Permission) (codePerms : List String)
    (q : String) :
    dbPermsLookup (sync table codePerms).2 q =
      if codePerms.dedup.contains q = true then
        postCodeStatus (dbPermsLookup table q)
      else if dbPermsLookup table q = some "active" then some "deleted"
      else dbPermsLookup table q := by
  have hsorted_nodup : (codePerms.dedup.insertionSort (fun a b => a ≤ b)).Nodup :=
    nodup_insertionSort _ (List.nodup_dedup _)
  have h1 := syncCode_foldl_lookup (fun k => dbPermsLookup table k)
      (codePerms.dedup.insertionSort (fun a b => a ≤ b)) table ⟨[], [], [], []⟩
      hsorted_nodup (fun q' _ => rfl)
  have hagree2 : ∀ q' ∈ (table.map (fun p => p.permission_key)).dedup,
      codePerms.dedup.contains q' = false →
      dbPermsLookup (((codePerms.dedup.insertionSort (fun a b => a ≤ b)).foldl
        (syncCodeStep (fun k => dbPermsLookup table k))
        (table, ⟨[], [], [], []⟩)).1) q' = dbPermsLookup table q' := by
    intro q' _ hc
    rw [h1 q', if_neg (by
      intro hmem
      rw [mem_insertionSort] at hmem
      have hct : codePerms.dedup.contains q' = true := by
        simp [List.contains, List.elem_eq_mem, hmem]
      rw [hc] at hct
      simp at hct)]
  have h2 := syncDelete_foldl_lookup codePerms.dedup
      (fun k => dbPermsLookup table k)
      ((table.map (fun p => p.permission_key)).dedup)
      (((codePerms.dedup.insertionSort (fun a b => a ≤ b)).foldl
        (syncCodeStep (fun k => dbPermsLookup table k))
        (table, ⟨[], [], [], []⟩)).1)
      (((codePerms.dedup.insertionSort (fun a b => a ≤ b)).foldl
        (syncCodeStep (fun k => dbPermsLookup table k))
        (table, ⟨[], [], [], []⟩)).2)
      (List.nodup_dedup _) hagree2 q
  show dbPermsLookup ((((table.map (fun p => p.permission_key)).dedup).foldl
      (syncDeleteStep codePerms.dedup (fun k => dbPermsLookup table k))
      ((codePerms.dedup.insertionSort (fun a b => a ≤ b)).foldl
        (syncCodeStep (fun k => dbPermsLookup table k))
        (table, ⟨[], [], [], []⟩))).1) q = _
  rw [show ((codePerms.dedup.insertionSort (fun a b => a ≤ b)).foldl
      (syncCodeStep (fun k => dbPermsLookup table k)) (table, ⟨[], [], [], []⟩)) =
      (((codePerms.dedup.insertionSort (fun a b => a ≤ b)).foldl
        (syncCodeStep (fun k => dbPermsLookup table k)) (table, ⟨[], [], [], []⟩)).1,
       ((codePerms.dedup.insertionSort (fun a b => a ≤ b)).foldl
        (syncCodeStep (fun k => dbPermsLookup table k)) (table, ⟨[], [], [], []⟩)).2)
    from rfl]
  rw [h2]
  by_cases hc : codePerms.dedup.contains q = true
  · rw [if_neg (fun hcc => by rw [hcc.2.1] at hc; simp at hc)]
    rw [h1 q]
    have hqs : q ∈ codePerms.dedup.insertionSort (fun a b => a ≤ b) := by
      rw [mem_insertionSort]
      simpa [List.contains, List.elem_eq_mem] using hc
    rw [if_pos hqs, if_pos hc]
  · have hcf : codePerms.dedup.contains q = false := by
      cases hcc : codePerms.dedup.contains q
      · rfl
      · exact absurd hcc hc
    have hqs : q ∉ codePerms.dedup.insertionSort (fun a b => a ≤ b) := by
      rw [mem_insertionSort]
      intro hmem
      have hct : codePerms.dedup.contains q = true := by
        simp [List.contains, List.elem_eq_mem, hmem]
      rw [hcf] at hct
      simp at hct
    rw [if_neg hc]
    by_cases hact : dbPermsLookup table q = some "active"
    · have hsome : (dbPermsLookup table q).isSome = true := by rw [hact]; rfl
      obtain ⟨p, hp, hpk⟩ := (dbPermsLookup_isSome_iff table q).mp hsome
      have hqdb : q ∈ (table.map (fun p => p.permission_key)).dedup := by
        rw [List.mem_dedup]
        exact List.mem_map.mpr ⟨p, hp, hpk⟩
      rw [if_pos ⟨hqdb, hcf, hact⟩, if_pos hact]
    · rw [if_neg (fun hcc => hact hcc.2.2), h1 q, if_neg hqs, if_neg hact]

/-! ## Claims -/

/-- C3: deny-by-default — when no permission row carries key `k` with status
`active` (absent, never synced, or soft-deleted), `check_user_has_permission`
returns `false` for every user, whatever the role assignments and override
rows say. -/
theorem C3_deny_by_default (s : Store) (uid : Nat) (key : String)
    (h : ∀ p ∈ s.permissions, p.permission_key = key → p.status ≠ "active") :
    check_user_has_permission s uid key = false := by
  apply check_eq_false_of_no_active
  unfold findActivePermission
  rw [List.find?_eq_none]
  intro p hp
  simp only [keyIs, Bool.and_eq_true, beq_iff_eq]
  rintro ⟨hk, hs⟩
  exact h p hp hk hs

/-- Witness for C3: the key `user.create` exists only soft-deleted, the user
sits on an "admin" role that has it assigned, and the check still denies. -/
theorem C3_deny_by_default_witness :
    check_user_has_permission
      ⟨[⟨1, "user.create", "d", "deleted", 2⟩], [], [⟨1, 1, 2⟩],
       [⟨1, some 1, "A", "a"⟩], [⟨1⟩]⟩ 1 "user.create" = false :=
  C3_deny_by_default _ 1 "user.create" (by decide)

/-- C10: an any-of check over an empty key list is `false` for every session
and user, so `verify_any_permission` with an empty list always raises the
403 Forbidden error. -/
theorem C10_verify_any_empty (sess : Session) (uid : Nat) :
    PermissionChecker.check_any_permission sess uid [] = false ∧
    PermissionChecker.verify_any_permission sess uid [] =
      Except.error (HTTPError.forbidden
        ("Requires any of: " ++ String.intercalate ", " [])) :=
  ⟨rfl, rfl⟩

/-- C9: the override status enum admits exactly the four values granted,
revoked, active, inactive; and an override row whose status is anything but
`granted` makes the check return `false` for an active permission, whatever
the role assignments are (they can be replaced arbitrarily). -/
theorem C9_non_granted_override_denies (s : Store) (uid : Nat) (key : String)
    (p : Permission) (up : UserPermission)
    (hp : findActivePermission s key = some p)
    (hup : findUserPermission s uid p.permission_id = some up)
    (hng : up.status ≠ UserPermStatus.granted) :
    (∀ st : UserPermStatus, st = UserPermStatus.granted ∨
      st = UserPermStatus.revoked ∨ st = UserPermStatus.active ∨
      st = UserPermStatus.inactive) ∧
    ∀ rps : List RolePermission,
      check_user_has_permission { s with role_permissions := rps } uid key = false := by
  constructor
  · intro st
    cases st <;> simp
  · intro rps
    have hp' : findActivePermission { s with role_permissions := rps } key = some p := hp
    have hup' :
        findUserPermission { s with role_permissions := rps } uid p.permission_id = some up := hup
    rw [check_of_override _ uid key p up hp' hup']
    simpa [beq_eq_false_iff_ne] using hng

/-- Witness for C9: a legacy `active` override row on `leave.view` denies the
check although role 1 has the permission assigned. -/
theorem C9_non_granted_override_denies_witness :
    check_user_has_permission { exStoreLegacy with role_permissions := [RP_leave] }
      1 "leave.view" = false :=
  (C9_non_granted_override_denies exStoreLegacy 1 "leave.view" P_leave
    ⟨1, 1, UserPermStatus.active, 2⟩ (by decide) (by decide) (by decide)).2 [RP_leave]

/-- C5 (counterexample): on a failing session the lookup raises, yet
`check_user_has_permission` answers the plain boolean `false` — the same
state answers `true` on a healthy session, so the error was converted into a
false answer rather than bubbling up. -/
theorem C5_errors_counterexample :
    checkUserHasPermissionTry exSessFail 1 "leave.view" =
      Except.error DBError.connectivity ∧
    check_user_has_permission_db exSessFail 1 "leave.view" = false ∧
    check_user_has_permission_db exSessOk 1 "leave.view" = true :=
  ⟨rfl, rfl, rfl⟩

/-- C5 (amended): errors during the permission lookup are swallowed, not
propagated — whenever the try-body raises, `check_user_has_permission`
returns `false` and `verify_permission` raises Forbidden (fail-closed). -/
theorem C5_errors_fail_closed (sess : Session) (uid : Nat) (key : String)
    (e : DBError)
    (h : checkUserHasPermissionTry sess uid key = Except.error e) :
    check_user_has_permission_db sess uid key = false ∧
    PermissionChecker.verify_permission sess uid key =
      Except.error (HTTPError.forbidden ("Permission required: " ++ key)) := by
  have hdb : check_user_has_permission_db sess uid key = false := by
    unfold check_user_has_permission_db
    rw [h]
  refine ⟨hdb, ?_⟩
  unfold PermissionChecker.verify_permission PermissionChecker.check_permission
  rw [hdb]
  simp

/-- Witness for the amended C5 on the failing session. -/
theorem C5_errors_fail_closed_witness :
    check_user_has_permission_db exSessFail 1 "leave.view" = false ∧
    PermissionChecker.verify_permission exSessFail 1 "leave.view" =
      Except.error (HTTPError.forbidden ("Permission required: " ++ "leave.view")) :=
  C5_errors_fail_closed exSessFail 1 "leave.view" DBError.connectivity rfl

/-- C8 (code bug): a grant on an already-Granted override and a revoke on an
already-Revoked override do reject with the store unchanged — but with the
untyped `NameError` from the missing `UserPermissionStatus` import (lines
497/538), raised before the AlreadyInState `ValueError` branch can be
reached. -/
theorem C8_already_in_state_raises :
    grant_extra_permission exStoreGranted 1 1 9 =
      (Except.error DBError.nameError, exStoreGranted) ∧
    revoke_role_permission exStoreRevoked 1 1 9 =
      (Except.error DBError.nameError, exStoreRevoked) :=
  ⟨rfl, rfl⟩

/-- C1 (code bug): user 1's role holds the active `leave.view`, so the check
is `true`; `revoke_role_permission` raises `NameError` (line 553) and writes
nothing, so the check stays `true` instead of turning `false`; the subsequent
`grant_extra_permission` also raises (line 512), leaving the role-derived
`true`. -/
theorem C1_revoke_raises_check_unchanged :
    check_user_has_permission exStoreRole 1 "leave.view" = true ∧
    revoke_role_permission exStoreRole 1 1 9 =
      (Except.error DBError.nameError, exStoreRole) ∧
    check_user_has_permission (revoke_role_permission exStoreRole 1 1 9).2 1
      "leave.view" = true ∧
    grant_extra_permission (revoke_role_permission exStoreRole 1 1 9).2 1 1 9 =
      (Except.error DBError.nameError, exStoreRole) ∧
    check_user_has_permission
      (grant_extra_permission (revoke_role_permission exStoreRole 1 1 9).2 1 1 9).2
      1 "leave.view" = true :=
  ⟨rfl, rfl, rfl, rfl, rfl⟩

/-- C7 (code bug): `grant_extra_permission` raises `NameError` on every call
(line 497 with an existing row, line 512 without) and never mutates, so the
round trip's precondition — a successful grant — is unsatisfiable; with no
prior override row and with a pre-existing Revoked row alike, the grant
errors and `hasPermission` is unchanged. -/
theorem C7_grant_never_succeeds :
    grant_extra_permission exStoreRole 1 1 9 =
      (Except.error DBError.nameError, exStoreRole) ∧
    grant_extra_permission exStoreRevoked 1 1 9 =
      (Except.error DBError.nameError, exStoreRevoked) ∧
    check_user_has_permission (grant_extra_permission exStoreRevoked 1 1 9).2 1
      "leave.view" = check_user_has_permission exStoreRevoked 1 "leave.view" :=
  ⟨rfl, rfl, rfl⟩

/-- C2 (code bug): `get_user_effective_permissions` never returns a
breakdown — for user 1 of the role-bearing store the deferred import of
`RolePermission` from `roles.models` fails (line 246, the class lives in
`role_permissions/models.py`); for user 1 of the role-less store, step 2's
`get_granted_permissions` raises `NameError` (line 471); a missing user
raises ValueError. -/
theorem C2_effective_permissions_always_raises :
    get_user_effective_permissions exStoreRole 1 =
      Except.error DBError.importError ∧
    get_user_effective_permissions exStoreDeleted 1 =
      Except.error DBError.nameError ∧
    get_user_effective_permissions exStoreRole 2 =
      Except.error DBError.userNotFound ∧
    get_granted_permissions exStoreDeleted 1 = Except.error DBError.nameError ∧
    get_revoked_permissions exStoreDeleted 1 = Except.error DBError.nameError :=
  ⟨rfl, rfl, rfl, rfl, rfl⟩

/-- C6 (counterexample): both roles and both permissions pass validation; the
first call creates 4 rows, and the second identical call creates 0 new rows —
but it reports 4 successes and 0 skips (re-assignments refresh the audit
field and count as successes), not `skipped == 4, succeeded == 0`. -/
theorem C6_second_call_counterexample :
    (bulk_assign_permissions exStoreBulk [1, 2] [1, 2] 9).1 =
      Except.ok ⟨4, 4, 0⟩ ∧
    ((bulk_assign_permissions exStoreBulk [1, 2] [1, 2] 9).2).role_permissions.length = 4 ∧
    (bulk_assign_permissions
      (bulk_assign_permissions exStoreBulk [1, 2] [1, 2] 9).2 [1, 2] [1, 2] 9).1 =
      Except.ok ⟨4, 4, 0⟩ ∧
    ((bulk_assign_permissions
      (bulk_assign_permissions exStoreBulk [1, 2] [1, 2] 9).2
      [1, 2] [1, 2] 9).2).role_permissions.length = 4 :=
  ⟨rfl, rfl, rfl, rfl⟩

/-- C6 (amended): a validation failure fails the whole call with the store
untouched; a successful call reports attempted = succeeded = |roles|·|perms|
and skipped = 0, creates at most |roles|·|perms| rows, and a second identical
call returns the same report while creating 0 new rows. -/
theorem C6_bulk_assign_report (s : Store) (role_ids permission_ids : List Nat)
    (actor : Nat) :
    (∀ e, (bulk_assign_permissions s role_ids permission_ids actor).1 =
        Except.error e →
      (bulk_assign_permissions s role_ids permission_ids actor).2 = s) ∧
    ∀ rep s1,
      bulk_assign_permissions s role_ids permission_ids actor =
        (Except.ok rep, s1) →
      rep = ⟨role_ids.length * permission_ids.length,
             role_ids.length * permission_ids.length, 0⟩ ∧
      s1.role_permissions.length ≤
        s.role_permissions.length + role_ids.length * permission_ids.length ∧
      (bulk_assign_permissions s1 role_ids permission_ids actor).1 =
        Except.ok rep ∧
      ((bulk_assign_permissions s1 role_ids permission_ids actor).2).role_permissions.length =
        s1.role_permissions.length := by
  constructor
  · intro e he
    simp only [bulk_assign_permissions] at he ⊢
    split at he
    next h1 => rw [if_pos h1]
    next h1 =>
      split at he
      next h2 => rw [if_neg h1, if_pos h2]
      next h2 => exact absurd he (by simp)
  · intro rep s1 heq
    simp only [bulk_assign_permissions] at heq
    split at heq
    next h1 => exact absurd heq (by simp)
    next h1 =>
      split at heq
      next h2 => exact absurd heq (by simp)
      next h2 =>
        rw [Prod.mk.injEq] at heq
        obtain ⟨hrep, hs1⟩ := heq
        rw [Except.ok.injEq] at hrep
        obtain ⟨out_len, out_perm, out_roles, out_bound, out_pres, out_all, out_eq⟩ :=
          assign_outer_fold actor permission_ids role_ids (s, [])
        have hlen : (bulk_assign_repo s role_ids permission_ids actor).2.length =
            role_ids.length * permission_ids.length := by
          simpa [bulk_assign_repo] using out_len
        have hrepn : rep = ⟨role_ids.length * permission_ids.length,
            role_ids.length * permission_ids.length, 0⟩ := by
          rw [← hrep, hlen, Nat.sub_self]
        have hroles1 : s1.roles = s.roles := by
          rw [← hs1]
          exact out_roles
        have hperms1 : s1.permissions = s.permissions := by
          rw [← hs1]
          exact out_perm
        obtain ⟨out2_len, _, _, _, _, _, out2_eq⟩ :=
          assign_outer_fold actor permission_ids role_ids (s1, [])
        have hlen2 : (bulk_assign_repo s1 role_ids permission_ids actor).2.length =
            role_ids.length * permission_ids.length := by
          simpa [bulk_assign_repo] using out2_len
        have hall1 : ∀ rid ∈ role_ids, ∀ pid ∈ permission_ids,
            pairAssigned s1 rid pid = true := by
          intro rid hrid pid hpid
          rw [← hs1]
          exact out_all rid hrid pid hpid
        refine ⟨hrepn, ?_, ?_, ?_⟩
        · rw [← hs1]
          exact out_bound
        · simp only [bulk_assign_permissions]
          rw [hroles1, hperms1, if_neg h1, if_neg h2]
          rw [hrepn, hlen2, Nat.sub_self]
        · simp only [bulk_assign_permissions]
          rw [hroles1, hperms1, if_neg h1, if_neg h2]
          exact out2_eq (fun rid hrid pid hpid => hall1 rid hrid pid hpid)

/-- Witness for the amended C6 on the two-role / two-permission store. -/
theorem C6_bulk_assign_report_witness :
    (⟨4, 4, 0⟩ : BulkAssignReport) = ⟨4, 4, 0⟩ ∧
    ((bulk_assign_permissions exStoreBulk [1, 2] [1, 2] 9).2).role_permissions.length ≤
      exStoreBulk.role_permissions.length + 4 ∧
    (bulk_assign_permissions ((bulk_assign_permissions exStoreBulk [1, 2] [1, 2] 9).2)
      [1, 2] [1, 2] 9).1 = Except.ok ⟨4, 4, 0⟩ ∧
    ((bulk_assign_permissions ((bulk_assign_permissions exStoreBulk [1, 2] [1, 2] 9).2)
      [1, 2] [1, 2] 9).2).role_permissions.length =
      ((bulk_assign_permissions exStoreBulk [1, 2] [1, 2] 9).2).role_permissions.length :=
  (C6_bulk_assign_report exStoreBulk [1, 2] [1, 2] 9).2 ⟨4, 4, 0⟩
    ((bulk_assign_permissions exStoreBulk [1, 2] [1, 2] 9).2) rfl

/-- C4: `sync` is idempotent — whatever the starting table, a second `sync`
with the unchanged code catalog performs zero mutations: its inserted,
reactivated and soft-deleted action lists are empty and the permissions
table is returned unchanged. -/
theorem C4_sync_idempotent (table : List Permission) (codePerms : List String) :
    ((sync (sync table codePerms).2 codePerms).1).inserted = [] ∧
    ((sync (sync table codePerms).2 codePerms).1).reactivated = [] ∧
    ((sync (sync table codePerms).2 codePerms).1).soft_deleted = [] ∧
    (sync (sync table codePerms).2 codePerms).2 = (sync table codePerms).2 := by
  obtain ⟨T, hT⟩ : ∃ T, (sync table codePerms).2 = T := ⟨_, rfl⟩
  have hsnap2 : ∀ q, dbPermsLookup T q =
      if codePerms.dedup.contains q = true then
        postCodeStatus (dbPermsLookup table q)
      else if dbPermsLookup table q = some "active" then some "deleted"
      else dbPermsLookup table q := by
    intro q
    rw [← hT]
    exact sync_lookup table codePerms q
  have hcode : ∀ k ∈ codePerms.dedup.insertionSort (fun a b => a ≤ b),
      ∃ st, dbPermsLookup T k = some st ∧ (st == "deleted") = false := by
    intro k hk
    have hc : codePerms.dedup.contains k = true := by
      rw [mem_insertionSort] at hk
      simp [List.contains, List.elem_eq_mem, hk]
    rw [hsnap2 k, if_pos hc]
    exact postCodeStatus_not_deleted _
  have hdel : ∀ k ∈ (T.map (fun p => p.permission_key)).dedup,
      (!(codePerms.dedup.contains k) &&
        (dbPermsLookup T k == some "active")) = false := by
    intro k _
    by_cases hc : codePerms.dedup.contains k = true
    · rw [hc]
      rfl
    · have hcf : codePerms.dedup.contains k = false := by
        cases hcc : codePerms.dedup.contains k
        · rfl
        · exact absurd hcc hc
      rw [hsnap2 k, if_neg hc]
      by_cases hact : dbPermsLookup table k = some "active"
      · rw [if_pos hact, hcf]
        rfl
      · rw [if_neg hact]
        have hbeq : (dbPermsLookup table k == some "active") = false :=
          beq_eq_false_iff_ne.mpr hact
        rw [hcf, hbeq]
        rfl
  have hstep1 : (codePerms.dedup.insertionSort (fun a b => a ≤ b)).foldl
      (syncCodeStep (fun k => dbPermsLookup T k)) (T, ⟨[], [], [], []⟩) =
      (T, ⟨[], [], [],
        [] ++ codePerms.dedup.insertionSort (fun a b => a ≤ b)⟩) :=
    syncCode_foldl_unchanged (fun k => dbPermsLookup T k) _ _ _ hcode
  have hstep2 : ((T.map (fun p => p.permission_key)).dedup).foldl
      (syncDeleteStep codePerms.dedup (fun k => dbPermsLookup T k))
      (T, ⟨[], [], [],
        [] ++ codePerms.dedup.insertionSort (fun a b => a ≤ b)⟩) =
      (T, ⟨[], [], [],
        [] ++ codePerms.dedup.insertionSort (fun a b => a ≤ b)⟩) :=
    syncDelete_foldl_skip codePerms.dedup (fun k => dbPermsLookup T k) _ _ _ hdel
  have hrun2 : sync T codePerms =
      (⟨[], [], [], codePerms.dedup.insertionSort (fun a b => a ≤ b)⟩, T) := by
    simp only [sync]
    rw [hstep1, hstep2]
    rfl
  rw [hT, hrun2]
  exact ⟨rfl, rfl, rfl, rfl⟩

end HRMS
